import Mathlib

/-!
Shallow embedding of `contracts/computeLendingFHE.sol` (contract
`ComputeLendingFHE`): a batch-aggregation and verified-decryption state
machine over homomorphically encrypted 32-bit quantities.

Modelling conventions:
* Addresses, timestamps, batch ids, request ids and bytes32 ciphertext
  handles are `Nat`.
* Solidity mappings are total functions with the zero default, updated
  with `Function.update`.
* Each external function is a total Lean function from its call
  arguments (`msg.sender` and `block.timestamp` made explicit) and the
  pre-state to `Except Err ContractState`; `Except.error` models a
  revert, which persists no state change.
* The external FHE capability is modelled the way the spec describes it
  ("add two encrypted values and get an encrypted value"): a ciphertext
  handle stands for the 32-bit plaintext it decrypts to, homomorphic
  addition is addition modulo 2^32 (the `euint32` value space), and the
  decryption oracle reads the plaintext back off the handle.
* `FHE.requestDecryption` returns an id chosen by the external service;
  the id is passed to `requestBatchDecryption` as an explicit argument.
* `FHE.checkSignatures` reverts on a bad proof; the verification outcome
  is an explicit `Bool` argument of `myCallback`, and its revert is
  modelled by the error `InvalidProof`.
* `keccak256(abi.encode(cts, address(this)))` in `_hashCiphertexts` is
  modelled by an injective pairing of the ciphertext words with the
  contract address.
-/

namespace ComputeLendingFHE

/-- The size of the `euint32` value space. -/
def UINT32_MOD : Nat := 4294967296

/-- An `euint32` ciphertext: in this model the handle carries the
plaintext it decrypts to (reduced modulo 2^32 by every FHE operation). -/
structure Euint32 where
  val : Nat
deriving DecidableEq

namespace FHE

/-- `FHE.asEuint32`: rehydrate a stored `bytes32` handle (or the zero
word of an untouched storage slot) into an `euint32` ciphertext. -/
def asEuint32 (n : Nat) : Euint32 := ⟨n % UINT32_MOD⟩

/-- `FHE.add` on `euint32`: homomorphic addition, modular in 2^32. -/
def add (a b : Euint32) : Euint32 := ⟨(a.val + b.val) % UINT32_MOD⟩

/-- `FHE.toBytes32`: the storable handle of a ciphertext. -/
def toBytes32 (a : Euint32) : Nat := a.val

end FHE

/-- The external decryption oracle applied to a stored handle: the
32-bit plaintext the ciphertext decrypts to. -/
def decryptHandle (h : Nat) : Nat := h % UINT32_MOD

/-- The contract's custom errors (plus `InvalidProof`, the revert raised
inside the external `FHE.checkSignatures` on a bad proof). -/
inductive Err where
  | NotOwner
  | NotProvider
  | Paused
  | CooldownActive
  | BatchClosedOrNonExistent
  | ReplayDetected
  | StateMismatch
  | InvalidBatchId
  | InvalidProof
deriving DecidableEq

/-- struct DecryptionContext { uint256 batchId; bytes32 stateHash; bool processed; } -/
structure DecryptionContext where
  batchId : Nat
  stateHash : Nat
  processed : Bool
deriving DecidableEq

/-- The events the contract emits (success paths only). -/
inductive Event where
  | OwnershipTransferred (previousOwner newOwner : Nat)
  | ProviderAdded (provider : Nat)
  | ProviderRemoved (provider : Nat)
  | PauseToggled (paused : Bool)
  | CooldownSecondsSet (oldCooldown newCooldown : Nat)
  | BatchOpened (batchId : Nat)
  | BatchClosed (batchId : Nat)
  | ComputeResourceSubmitted (provider batchId encryptedComputeUnits encryptedLendAmount : Nat)
  | DecryptionRequested (requestId batchId stateHash : Nat)
  | DecryptionCompleted (requestId batchId totalComputeUnits totalLendAmount : Nat)
deriving DecidableEq

/-- The contract's storage, plus `self` (`address(this)`, fixed at
deployment) and the log of emitted events. -/
structure ContractState where
  self : Nat
  owner : Nat
  isProvider : Nat → Bool
  paused : Bool
  cooldownSeconds : Nat
  lastSubmissionTime : Nat → Nat
  lastDecryptionRequestTime : Nat → Nat
  currentBatchId : Nat
  isBatchOpen : Nat → Bool
  batchTotalEncryptedComputeUnits : Nat → Nat
  batchTotalEncryptedLendAmounts : Nat → Nat
  decryptionContexts : Nat → DecryptionContext
  events : List Event

/-- The constructor: `owner = msg.sender`, every mapping at its zero
default, and the initial `OwnershipTransferred` event. -/
def deploy (deployer self : Nat) : ContractState where
  self := self
  owner := deployer
  isProvider := fun _ => false
  paused := false
  cooldownSeconds := 0
  lastSubmissionTime := fun _ => 0
  lastDecryptionRequestTime := fun _ => 0
  currentBatchId := 0
  isBatchOpen := fun _ => false
  batchTotalEncryptedComputeUnits := fun _ => 0
  batchTotalEncryptedLendAmounts := fun _ => 0
  decryptionContexts := fun _ => ⟨0, 0, false⟩
  events := [.OwnershipTransferred 0 deployer]

/-- function transferOwnership(address newOwner) external onlyOwner -/
def transferOwnership (sender newOwner : Nat) (s : ContractState) :
    Except Err ContractState :=
  if sender ≠ s.owner then .error .NotOwner
  else .ok { s with
    owner := newOwner
    events := s.events ++ [.OwnershipTransferred s.owner newOwner] }

/-- function addProvider(address provider) external onlyOwner -/
def addProvider (sender provider : Nat) (s : ContractState) :
    Except Err ContractState :=
  if sender ≠ s.owner then .error .NotOwner
  else if s.isProvider provider then .ok s
  else .ok { s with
    isProvider := Function.update s.isProvider provider true
    events := s.events ++ [.ProviderAdded provider] }

/-- function removeProvider(address provider) external onlyOwner -/
def removeProvider (sender provider : Nat) (s : ContractState) :
    Except Err ContractState :=
  if sender ≠ s.owner then .error .NotOwner
  else if s.isProvider provider then
    .ok { s with
      isProvider := Function.update s.isProvider provider false
      events := s.events ++ [.ProviderRemoved provider] }
  else .ok s

/-- function setPaused(bool _paused) external onlyOwner -/
def setPaused (sender : Nat) (newPaused : Bool) (s : ContractState) :
    Except Err ContractState :=
  if sender ≠ s.owner then .error .NotOwner
  else .ok { s with
    paused := newPaused
    events := s.events ++ [.PauseToggled newPaused] }

/-- function setCooldownSeconds(uint256 newCooldownSeconds) external onlyOwner -/
def setCooldownSeconds (sender newCooldownSeconds : Nat) (s : ContractState) :
    Except Err ContractState :=
  if sender ≠ s.owner then .error .NotOwner
  else .ok { s with
    cooldownSeconds := newCooldownSeconds
    events := s.events ++ [.CooldownSecondsSet s.cooldownSeconds newCooldownSeconds] }

/-- function openBatch() external onlyOwner whenNotPaused -/
def openBatch (sender : Nat) (s : ContractState) : Except Err ContractState :=
  if sender ≠ s.owner then .error .NotOwner
  else if s.paused then .error .Paused
  else .ok { s with
    currentBatchId := s.currentBatchId + 1
    isBatchOpen := Function.update s.isBatchOpen (s.currentBatchId + 1) true
    events := s.events ++ [.BatchOpened (s.currentBatchId + 1)] }

/-- function closeBatch(uint256 batchId) external onlyOwner -/
def closeBatch (sender batchId : Nat) (s : ContractState) :
    Except Err ContractState :=
  if sender ≠ s.owner then .error .NotOwner
  else if ¬ s.isBatchOpen batchId then .error .BatchClosedOrNonExistent
  else .ok { s with
    isBatchOpen := Function.update s.isBatchOpen batchId false
    events := s.events ++ [.BatchClosed batchId] }

/-- function submitEncryptedComputeResource(uint256 batchId, euint32
encryptedComputeUnits, euint32 encryptedLendAmount) external onlyProvider
whenNotPaused. `now` is `block.timestamp`. The `_initIfNeeded` calls only
touch the FHE coprocessor, never contract storage, so they are
state-transparent here. -/
def submitEncryptedComputeResource (sender now batchId : Nat)
    (encryptedComputeUnits encryptedLendAmount : Euint32) (s : ContractState) :
    Except Err ContractState :=
  if ¬ s.isProvider sender then .error .NotProvider
  else if s.paused then .error .Paused
  else if now < s.lastSubmissionTime sender + s.cooldownSeconds then
    .error .CooldownActive
  else if ¬ s.isBatchOpen batchId then .error .BatchClosedOrNonExistent
  else .ok { s with
    lastSubmissionTime := Function.update s.lastSubmissionTime sender now
    batchTotalEncryptedComputeUnits :=
      Function.update s.batchTotalEncryptedComputeUnits batchId
        (FHE.toBytes32 (FHE.add encryptedComputeUnits
          (FHE.asEuint32 (s.batchTotalEncryptedComputeUnits batchId))))
    batchTotalEncryptedLendAmounts :=
      Function.update s.batchTotalEncryptedLendAmounts batchId
        (FHE.toBytes32 (FHE.add encryptedLendAmount
          (FHE.asEuint32 (s.batchTotalEncryptedLendAmounts batchId))))
    events := s.events ++ [.ComputeResourceSubmitted sender batchId
      (FHE.toBytes32 encryptedComputeUnits) (FHE.toBytes32 encryptedLendAmount)] }

/-- function _hashCiphertexts(bytes32[] memory cts) internal pure:
`keccak256(abi.encode(cts, address(this)))`, the collision-resistant
hash modelled by an injective `Nat` pairing. -/
def hashCiphertexts (cts : List Nat) (self : Nat) : Nat :=
  Nat.pair (cts.foldr Nat.pair 0) self

/-- function requestBatchDecryption(uint256 batchId) external onlyOwner
whenNotPaused. `requestId` is the id returned by the external
`FHE.requestDecryption(cts, this.myCallback.selector)`. -/
def requestBatchDecryption (sender now batchId requestId : Nat)
    (s : ContractState) : Except Err ContractState :=
  if sender ≠ s.owner then .error .NotOwner
  else if s.paused then .error .Paused
  else if now < s.lastDecryptionRequestTime sender + s.cooldownSeconds then
    .error .CooldownActive
  else if s.isBatchOpen batchId then .error .BatchClosedOrNonExistent
  else .ok { s with
    lastDecryptionRequestTime := Function.update s.lastDecryptionRequestTime sender now
    decryptionContexts := Function.update s.decryptionContexts requestId
      ⟨batchId,
       hashCiphertexts [s.batchTotalEncryptedComputeUnits batchId,
                        s.batchTotalEncryptedLendAmounts batchId] s.self,
       false⟩
    events := s.events ++ [.DecryptionRequested requestId batchId
      (hashCiphertexts [s.batchTotalEncryptedComputeUnits batchId,
                        s.batchTotalEncryptedLendAmounts batchId] s.self)] }

/-- function myCallback(uint256 requestId, bytes memory cleartexts, bytes
memory proof) public. `cleartexts` is the pair of decoded 32-byte words
(`abi.decode(cleartexts, (uint256))` and the assembly `mload` of the
second word); `sigOk` is the outcome of `FHE.checkSignatures`. -/
def myCallback (requestId : Nat) (cleartexts : Nat × Nat) (sigOk : Bool)
    (s : ContractState) : Except Err ContractState :=
  if (s.decryptionContexts requestId).processed then .error .ReplayDetected
  else if ¬ s.isBatchOpen (s.decryptionContexts requestId).batchId ∧
      s.batchTotalEncryptedComputeUnits (s.decryptionContexts requestId).batchId = 0 then
    .error .InvalidBatchId
  else if hashCiphertexts
      [s.batchTotalEncryptedComputeUnits (s.decryptionContexts requestId).batchId,
       s.batchTotalEncryptedLendAmounts (s.decryptionContexts requestId).batchId]
      s.self ≠ (s.decryptionContexts requestId).stateHash then
    .error .StateMismatch
  else if ¬ sigOk then .error .InvalidProof
  else .ok { s with
    decryptionContexts := Function.update s.decryptionContexts requestId
      ⟨(s.decryptionContexts requestId).batchId,
       (s.decryptionContexts requestId).stateHash, true⟩
    events := s.events ++ [.DecryptionCompleted requestId
      (s.decryptionContexts requestId).batchId cleartexts.1 cleartexts.2] }

/-- One provider submission: caller, `block.timestamp`, and the two
encrypted inputs. -/
structure Submission where
  sender : Nat
  time : Nat
  computeUnits : Euint32
  lendAmount : Euint32
deriving DecidableEq

/-- An external call to the contract, with its environment made explicit. -/
inductive Op where
  | transferOwnershipOp (sender newOwner : Nat)
  | addProviderOp (sender provider : Nat)
  | removeProviderOp (sender provider : Nat)
  | setPausedOp (sender : Nat) (newPaused : Bool)
  | setCooldownSecondsOp (sender newCooldownSeconds : Nat)
  | openBatchOp (sender : Nat)
  | closeBatchOp (sender batchId : Nat)
  | submitOp (sub : Submission) (batchId : Nat)
  | requestDecryptionOp (sender now batchId requestId : Nat)
  | callbackOp (requestId : Nat) (cleartexts : Nat × Nat) (sigOk : Bool)

/-- Dispatch one external call. -/
def exec (op : Op) (s : ContractState) : Except Err ContractState :=
  match op with
  | .transferOwnershipOp sender newOwner => transferOwnership sender newOwner s
  | .addProviderOp sender provider => addProvider sender provider s
  | .removeProviderOp sender provider => removeProvider sender provider s
  | .setPausedOp sender newPaused => setPaused sender newPaused s
  | .setCooldownSecondsOp sender n => setCooldownSeconds sender n s
  | .openBatchOp sender => openBatch sender s
  | .closeBatchOp sender batchId => closeBatch sender batchId s
  | .submitOp sub batchId =>
      submitEncryptedComputeResource sub.sender sub.time batchId
        sub.computeUnits sub.lendAmount s
  | .requestDecryptionOp sender now batchId requestId =>
      requestBatchDecryption sender now batchId requestId s
  | .callbackOp requestId cleartexts sigOk => myCallback requestId cleartexts sigOk s

/-- Transaction semantics: a reverted call leaves the state unchanged. -/
def applyOp (op : Op) (s : ContractState) : ContractState :=
  match exec op s with
  | .ok s' => s'
  | .error _ => s

/-- Run a sequence of external calls. -/
def run (s : ContractState) (ops : List Op) : ContractState :=
  ops.foldl (fun t op => applyOp op t) s

/-- A state the deployed contract can actually be in. -/
def Reachable (s : ContractState) : Prop :=
  ∃ deployer self ops, s = run (deploy deployer self) ops

/-- Whether an `Except` outcome is a success. -/
def execOk (r : Except Err ContractState) : Bool :=
  match r with
  | .ok _ => true
  | .error _ => false

/-- The success state of an outcome, with a fallback for reverts. -/
def forceOk (r : Except Err ContractState) (d : ContractState) : ContractState :=
  match r with
  | .ok s => s
  | .error _ => d

/-- A sequence of consecutive `submitEncryptedComputeResource` calls into
one batch, failing on the first revert. -/
def submitList (batchId : Nat) (subs : List Submission) (s : ContractState) :
    Except Err ContractState :=
  match subs with
  | [] => .ok s
  | sub :: rest =>
      match submitEncryptedComputeResource sub.sender sub.time batchId
          sub.computeUnits sub.lendAmount s with
      | .error e => .error e
      | .ok s' => submitList batchId rest s'

/-- Sum of the decrypted compute-unit submissions. -/
def sumComputeUnits (subs : List Submission) : Nat :=
  (subs.map (fun sub => decryptHandle (FHE.toBytes32 sub.computeUnits))).sum

/-- Sum of the decrypted lend-amount submissions. -/
def sumLendAmounts (subs : List Submission) : Nat :=
  (subs.map (fun sub => decryptHandle (FHE.toBytes32 sub.lendAmount))).sum

/-- Whether an external call is a `requestBatchDecryption` to which the
external service hands out the given request id. -/
def usesRequestId (op : Op) (rid : Nat) : Bool :=
  match op with
  | .requestDecryptionOp _ _ _ r => r = rid
  | _ => false

/-- Whether an external call is a `transferOwnership`. -/
def isTransferOwnershipOp (op : Op) : Bool :=
  match op with
  | .transferOwnershipOp _ _ => true
  | _ => false

/-- A concrete deployment: deployer address 1, contract address 100. -/
def baseState : ContractState := deploy 1 100

/-- A concrete trace: register providers 2 and 3 and open batch 1. -/
def openOps : List Op := [.addProviderOp 1 2, .addProviderOp 1 3, .openBatchOp 1]

/-- The state with batch 1 open and providers 2 and 3 registered. -/
def openState : ContractState := run baseState openOps

/-- A concrete trace continuing `openOps`: submissions (10,5) and (7,3),
close batch 1, request its decryption under request id 77. -/
def readyOps : List Op := openOps ++
  [.submitOp ⟨2, 0, ⟨10⟩, ⟨5⟩⟩ 1, .submitOp ⟨3, 0, ⟨7⟩, ⟨3⟩⟩ 1,
   .closeBatchOp 1 1, .requestDecryptionOp 1 0 1 77]

/-- The state with batch 1 closed holding accumulators (17, 8) and a
pending decryption request 77. -/
def readyState : ContractState := run baseState readyOps

/-! ### Inversion lemmas: what a successful call implies -/

theorem transferOwnership_ok {sender newOwner : Nat} {s s' : ContractState}
    (h : transferOwnership sender newOwner s = Except.ok s') :
    sender = s.owner ∧ s' = { s with
      owner := newOwner
      events := s.events ++ [.OwnershipTransferred s.owner newOwner] } := by
  unfold transferOwnership at h
  split at h
  · exact Except.noConfusion h
  · next h1 =>
    injection h with h
    subst h
    exact ⟨by simpa using h1, rfl⟩

theorem addProvider_ok {sender provider : Nat} {s s' : ContractState}
    (h : addProvider sender provider s = Except.ok s') :
    sender = s.owner ∧ (s' = s ∨
      s' = { s with
        isProvider := Function.update s.isProvider provider true
        events := s.events ++ [.ProviderAdded provider] }) := by
  unfold addProvider at h
  split at h
  · exact Except.noConfusion h
  · next h1 =>
    split at h
    · injection h with h
      subst h
      exact ⟨by simpa using h1, Or.inl rfl⟩
    · injection h with h
      subst h
      exact ⟨by simpa using h1, Or.inr rfl⟩

theorem removeProvider_ok {sender provider : Nat} {s s' : ContractState}
    (h : removeProvider sender provider s = Except.ok s') :
    sender = s.owner ∧ (s' = s ∨
      s' = { s with
        isProvider := Function.update s.isProvider provider false
        events := s.events ++ [.ProviderRemoved provider] }) := by
  unfold removeProvider at h
  split at h
  · exact Except.noConfusion h
  · next h1 =>
    split at h
    · injection h with h
      subst h
      exact ⟨by simpa using h1, Or.inr rfl⟩
    · injection h with h
      subst h
      exact ⟨by simpa using h1, Or.inl rfl⟩

theorem setPaused_ok {sender : Nat} {newPaused : Bool} {s s' : ContractState}
    (h : setPaused sender newPaused s = Except.ok s') :
    sender = s.owner ∧ s' = { s with
      paused := newPaused
      events := s.events ++ [.PauseToggled newPaused] } := by
  unfold setPaused at h
  split at h
  · exact Except.noConfusion h
  · next h1 =>
    injection h with h
    subst h
    exact ⟨by simpa using h1, rfl⟩

theorem setCooldownSeconds_ok {sender n : Nat} {s s' : ContractState}
    (h : setCooldownSeconds sender n s = Except.ok s') :
    sender = s.owner ∧ s' = { s with
      cooldownSeconds := n
      events := s.events ++ [.CooldownSecondsSet s.cooldownSeconds n] } := by
  unfold setCooldownSeconds at h
  split at h
  · exact Except.noConfusion h
  · next h1 =>
    injection h with h
    subst h
    exact ⟨by simpa using h1, rfl⟩

theorem openBatch_ok {sender : Nat} {s s' : ContractState}
    (h : openBatch sender s = Except.ok s') :
    sender = s.owner ∧ s.paused = false ∧
    s' = { s with
      currentBatchId := s.currentBatchId + 1
      isBatchOpen := Function.update s.isBatchOpen (s.currentBatchId + 1) true
      events := s.events ++ [.BatchOpened (s.currentBatchId + 1)] } := by
  unfold openBatch at h
  split at h
  · exact Except.noConfusion h
  · next h1 =>
    split at h
    · exact Except.noConfusion h
    · next h2 =>
      injection h with h
      subst h
      exact ⟨by simpa using h1, by simpa using h2, rfl⟩

theorem closeBatch_ok {sender batchId : Nat} {s s' : ContractState}
    (h : closeBatch sender batchId s = Except.ok s') :
    sender = s.owner ∧ s.isBatchOpen batchId = true ∧
    s' = { s with
      isBatchOpen := Function.update s.isBatchOpen batchId false
      events := s.events ++ [.BatchClosed batchId] } := by
  unfold closeBatch at h
  split at h
  · exact Except.noConfusion h
  · next h1 =>
    split at h
    · exact Except.noConfusion h
    · next h2 =>
      injection h with h
      subst h
      exact ⟨by simpa using h1, by simpa using h2, rfl⟩

theorem submit_ok {sender now batchId : Nat} {cu la : Euint32} {s s' : ContractState}
    (h : submitEncryptedComputeResource sender now batchId cu la s = Except.ok s') :
    s.isProvider sender = true ∧ s.paused = false ∧
    s.lastSubmissionTime sender + s.cooldownSeconds ≤ now ∧
    s.isBatchOpen batchId = true ∧
    s' = { s with
      lastSubmissionTime := Function.update s.lastSubmissionTime sender now
      batchTotalEncryptedComputeUnits :=
        Function.update s.batchTotalEncryptedComputeUnits batchId
          (FHE.toBytes32 (FHE.add cu
            (FHE.asEuint32 (s.batchTotalEncryptedComputeUnits batchId))))
      batchTotalEncryptedLendAmounts :=
        Function.update s.batchTotalEncryptedLendAmounts batchId
          (FHE.toBytes32 (FHE.add la
            (FHE.asEuint32 (s.batchTotalEncryptedLendAmounts batchId))))
      events := s.events ++ [.ComputeResourceSubmitted sender batchId
        (FHE.toBytes32 cu) (FHE.toBytes32 la)] } := by
  unfold submitEncryptedComputeResource at h
  split at h
  · exact Except.noConfusion h
  · next h1 =>
    split at h
    · exact Except.noConfusion h
    · next h2 =>
      split at h
      · exact Except.noConfusion h
      · next h3 =>
        split at h
        · exact Except.noConfusion h
        · next h4 =>
          injection h with h
          subst h
          exact ⟨by simpa using h1, by simpa using h2, Nat.le_of_not_lt h3,
            by simpa using h4, rfl⟩

theorem requestBatchDecryption_ok {sender now batchId requestId : Nat}
    {s s' : ContractState}
    (h : requestBatchDecryption sender now batchId requestId s = Except.ok s') :
    sender = s.owner ∧ s.paused = false ∧
    s.lastDecryptionRequestTime sender + s.cooldownSeconds ≤ now ∧
    s.isBatchOpen batchId = false ∧
    s' = { s with
      lastDecryptionRequestTime := Function.update s.lastDecryptionRequestTime sender now
      decryptionContexts := Function.update s.decryptionContexts requestId
        ⟨batchId,
         hashCiphertexts [s.batchTotalEncryptedComputeUnits batchId,
                          s.batchTotalEncryptedLendAmounts batchId] s.self,
         false⟩
      events := s.events ++ [.DecryptionRequested requestId batchId
        (hashCiphertexts [s.batchTotalEncryptedComputeUnits batchId,
                          s.batchTotalEncryptedLendAmounts batchId] s.self)] } := by
  unfold requestBatchDecryption at h
  split at h
  · exact Except.noConfusion h
  · next h1 =>
    split at h
    · exact Except.noConfusion h
    · next h2 =>
      split at h
      · exact Except.noConfusion h
      · next h3 =>
        split at h
        · exact Except.noConfusion h
        · next h4 =>
          injection h with h
          subst h
          exact ⟨by simpa using h1, by simpa using h2, Nat.le_of_not_lt h3,
            by simpa using h4, rfl⟩

theorem myCallback_ok {requestId : Nat} {cleartexts : Nat × Nat} {sigOk : Bool}
    {s s' : ContractState}
    (h : myCallback requestId cleartexts sigOk s = Except.ok s') :
    (s.decryptionContexts requestId).processed = false ∧
    ¬ (s.isBatchOpen (s.decryptionContexts requestId).batchId = false ∧
       s.batchTotalEncryptedComputeUnits (s.decryptionContexts requestId).batchId = 0) ∧
    hashCiphertexts
      [s.batchTotalEncryptedComputeUnits (s.decryptionContexts requestId).batchId,
       s.batchTotalEncryptedLendAmounts (s.decryptionContexts requestId).batchId]
      s.self = (s.decryptionContexts requestId).stateHash ∧
    sigOk = true ∧
    s' = { s with
      decryptionContexts := Function.update s.decryptionContexts requestId
        ⟨(s.decryptionContexts requestId).batchId,
         (s.decryptionContexts requestId).stateHash, true⟩
      events := s.events ++ [.DecryptionCompleted requestId
        (s.decryptionContexts requestId).batchId cleartexts.1 cleartexts.2] } := by
  unfold myCallback at h
  split at h
  · exact Except.noConfusion h
  · next h1 =>
    split at h
    · exact Except.noConfusion h
    · next h2 =>
      split at h
      · exact Except.noConfusion h
      · next h3 =>
        split at h
        · exact Except.noConfusion h
        · next h4 =>
          injection h with h
          subst h
          exact ⟨by simpa using h1, by simpa using h2, by simpa using h3,
            by simpa using h4, rfl⟩

/-! ### Trace-level preservation lemmas -/

theorem run_cons (s : ContractState) (op : Op) (ops : List Op) :
    run s (op :: ops) = run (applyOp op s) ops := rfl

theorem run_append (s : ContractState) (ops1 ops2 : List Op) :
    run s (ops1 ++ ops2) = run (run s ops1) ops2 := List.foldl_append ..

theorem applyOp_ok (op : Op) (s s' : ContractState) (h : exec op s = Except.ok s') :
    applyOp op s = s' := by
  simp [applyOp, h]

theorem applyOp_error (op : Op) (s : ContractState) (e : Err)
    (h : exec op s = Except.error e) : applyOp op s = s := by
  simp [applyOp, h]

/-- One call preserves "batch `b` is closed with an allocated id", and
leaves a closed batch's accumulators untouched. -/
theorem applyOp_closed_frame (op : Op) (s : ContractState) (b : Nat)
    (hcl : s.isBatchOpen b = false) (hb : b ≤ s.currentBatchId) :
    (applyOp op s).isBatchOpen b = false ∧ b ≤ (applyOp op s).currentBatchId ∧
    (applyOp op s).batchTotalEncryptedComputeUnits b =
      s.batchTotalEncryptedComputeUnits b ∧
    (applyOp op s).batchTotalEncryptedLendAmounts b =
      s.batchTotalEncryptedLendAmounts b := by
  cases hE : exec op s with
  | error e => simp [applyOp_error op s e hE, hcl, hb]
  | ok s' =>
    rw [applyOp_ok op s s' hE]
    cases op with
    | transferOwnershipOp sender newOwner =>
        obtain ⟨-, rfl⟩ := transferOwnership_ok hE
        exact ⟨hcl, hb, rfl, rfl⟩
    | addProviderOp sender provider =>
        obtain ⟨-, rfl | rfl⟩ := addProvider_ok hE <;> exact ⟨hcl, hb, rfl, rfl⟩
    | removeProviderOp sender provider =>
        obtain ⟨-, rfl | rfl⟩ := removeProvider_ok hE <;> exact ⟨hcl, hb, rfl, rfl⟩
    | setPausedOp sender newPaused =>
        obtain ⟨-, rfl⟩ := setPaused_ok hE
        exact ⟨hcl, hb, rfl, rfl⟩
    | setCooldownSecondsOp sender n =>
        obtain ⟨-, rfl⟩ := setCooldownSeconds_ok hE
        exact ⟨hcl, hb, rfl, rfl⟩
    | openBatchOp sender =>
        obtain ⟨-, -, rfl⟩ := openBatch_ok hE
        refine ⟨?_, by show b ≤ s.currentBatchId + 1; omega, rfl, rfl⟩
        have hne : b ≠ s.currentBatchId + 1 := by omega
        simpa [Function.update_apply, hne] using hcl
    | closeBatchOp sender batchId =>
        obtain ⟨-, hop, rfl⟩ := closeBatch_ok hE
        refine ⟨?_, hb, rfl, rfl⟩
        by_cases hbb : b = batchId <;> simp [Function.update_apply, hbb, hcl]
    | submitOp sub batchId =>
        obtain ⟨-, -, -, hop, rfl⟩ := submit_ok hE
        have hne : b ≠ batchId := fun hbb => by rw [hbb, hop] at hcl; cases hcl
        simp [Function.update_apply, hne, hcl, hb]
    | requestDecryptionOp sender now batchId requestId =>
        obtain ⟨-, -, -, -, rfl⟩ := requestBatchDecryption_ok hE
        exact ⟨hcl, hb, rfl, rfl⟩
    | callbackOp requestId cleartexts sigOk =>
        obtain ⟨-, -, -, -, rfl⟩ := myCallback_ok hE
        exact ⟨hcl, hb, rfl, rfl⟩

/-- A whole trace preserves "batch `b` is closed with an allocated id"
and leaves that batch's accumulators untouched. -/
theorem run_closed_frame (ops : List Op) (s : ContractState) (b : Nat)
    (hcl : s.isBatchOpen b = false) (hb : b ≤ s.currentBatchId) :
    (run s ops).isBatchOpen b = false ∧ b ≤ (run s ops).currentBatchId ∧
    (run s ops).batchTotalEncryptedComputeUnits b =
      s.batchTotalEncryptedComputeUnits b ∧
    (run s ops).batchTotalEncryptedLendAmounts b =
      s.batchTotalEncryptedLendAmounts b := by
  induction ops generalizing s with
  | nil => exact ⟨hcl, hb, rfl, rfl⟩
  | cons op rest ih =>
    obtain ⟨h1, h2, h3, h4⟩ := applyOp_closed_frame op s b hcl hb
    rw [run_cons]
    obtain ⟨g1, g2, g3, g4⟩ := ih (applyOp op s) h1 h2
    exact ⟨g1, g2, g3.trans h3, g4.trans h4⟩

/-- One call never resets a resolved decryption context, provided the
external service does not reissue the same request id. -/
theorem applyOp_processed (op : Op) (s : ContractState) (rid : Nat)
    (hp : (s.decryptionContexts rid).processed = true)
    (hfresh : usesRequestId op rid = false) :
    ((applyOp op s).decryptionContexts rid).processed = true := by
  cases hE : exec op s with
  | error e => simpa [applyOp_error op s e hE] using hp
  | ok s' =>
    rw [applyOp_ok op s s' hE]
    cases op with
    | transferOwnershipOp sender newOwner =>
        obtain ⟨-, rfl⟩ := transferOwnership_ok hE
        exact hp
    | addProviderOp sender provider =>
        obtain ⟨-, rfl | rfl⟩ := addProvider_ok hE <;> exact hp
    | removeProviderOp sender provider =>
        obtain ⟨-, rfl | rfl⟩ := removeProvider_ok hE <;> exact hp
    | setPausedOp sender newPaused =>
        obtain ⟨-, rfl⟩ := setPaused_ok hE
        exact hp
    | setCooldownSecondsOp sender n =>
        obtain ⟨-, rfl⟩ := setCooldownSeconds_ok hE
        exact hp
    | openBatchOp sender =>
        obtain ⟨-, -, rfl⟩ := openBatch_ok hE
        exact hp
    | closeBatchOp sender batchId =>
        obtain ⟨-, -, rfl⟩ := closeBatch_ok hE
        exact hp
    | submitOp sub batchId =>
        obtain ⟨-, -, -, -, rfl⟩ := submit_ok hE
        exact hp
    | requestDecryptionOp sender now batchId r =>
        obtain ⟨-, -, -, -, rfl⟩ := requestBatchDecryption_ok hE
        have hne : rid ≠ r := by
          intro hrr
          simp [usesRequestId, hrr] at hfresh
        simpa [Function.update_noteq hne] using hp
    | callbackOp r cleartexts sigOk =>
        obtain ⟨hpr, -, -, -, rfl⟩ := myCallback_ok hE
        by_cases hrr : rid = r
        · rw [hrr, hpr] at hp
          cases hp
        · simpa [Function.update_noteq hrr] using hp

/-- A whole trace never resets a resolved decryption context, provided
the external service never reissues the same request id. -/
theorem run_processed (ops : List Op) (s : ContractState) (rid : Nat)
    (hp : (s.decryptionContexts rid).processed = true)
    (hfresh : ∀ op ∈ ops, usesRequestId op rid = false) :
    ((run s ops).decryptionContexts rid).processed = true := by
  induction ops generalizing s with
  | nil => exact hp
  | cons op rest ih =>
    rw [run_cons]
    exact ih (applyOp op s)
      (applyOp_processed op s rid hp (hfresh op (by simp)))
      (fun o ho => hfresh o (by simp [ho]))

/-- Only `transferOwnership` writes the authority slot. -/
theorem applyOp_owner (op : Op) (s : ContractState)
    (h : isTransferOwnershipOp op = false) :
    (applyOp op s).owner = s.owner := by
  cases hE : exec op s with
  | error e => simp [applyOp_error op s e hE]
  | ok s' =>
    rw [applyOp_ok op s s' hE]
    cases op with
    | transferOwnershipOp sender newOwner => simp [isTransferOwnershipOp] at h
    | addProviderOp sender provider =>
        obtain ⟨-, rfl | rfl⟩ := addProvider_ok hE <;> rfl
    | removeProviderOp sender provider =>
        obtain ⟨-, rfl | rfl⟩ := removeProvider_ok hE <;> rfl
    | setPausedOp sender newPaused =>
        obtain ⟨-, rfl⟩ := setPaused_ok hE
        rfl
    | setCooldownSecondsOp sender n =>
        obtain ⟨-, rfl⟩ := setCooldownSeconds_ok hE
        rfl
    | openBatchOp sender =>
        obtain ⟨-, -, rfl⟩ := openBatch_ok hE
        rfl
    | closeBatchOp sender batchId =>
        obtain ⟨-, -, rfl⟩ := closeBatch_ok hE
        rfl
    | submitOp sub batchId =>
        obtain ⟨-, -, -, -, rfl⟩ := submit_ok hE
        rfl
    | requestDecryptionOp sender now batchId r =>
        obtain ⟨-, -, -, -, rfl⟩ := requestBatchDecryption_ok hE
        rfl
    | callbackOp r cleartexts sigOk =>
        obtain ⟨-, -, -, -, rfl⟩ := myCallback_ok hE
        rfl

/-! ### Success characterizations: the gates suffice -/

theorem requestBatchDecryption_of_closed (s : ContractState) (now b rid : Nat)
    (hpause : s.paused = false)
    (hcool : s.lastDecryptionRequestTime s.owner + s.cooldownSeconds ≤ now)
    (hcl : s.isBatchOpen b = false) :
    requestBatchDecryption s.owner now b rid s = Except.ok { s with
      lastDecryptionRequestTime :=
        Function.update s.lastDecryptionRequestTime s.owner now
      decryptionContexts := Function.update s.decryptionContexts rid
        ⟨b, hashCiphertexts [s.batchTotalEncryptedComputeUnits b,
                             s.batchTotalEncryptedLendAmounts b] s.self, false⟩
      events := s.events ++ [.DecryptionRequested rid b
        (hashCiphertexts [s.batchTotalEncryptedComputeUnits b,
                          s.batchTotalEncryptedLendAmounts b] s.self)] } := by
  unfold requestBatchDecryption
  simp [hpause, hcl, Nat.not_lt.mpr hcool]

theorem submit_of_gates (s : ContractState) (sender now b : Nat) (cu la : Euint32)
    (hprov : s.isProvider sender = true) (hpause : s.paused = false)
    (hcool : s.lastSubmissionTime sender + s.cooldownSeconds ≤ now)
    (hopen : s.isBatchOpen b = true) :
    submitEncryptedComputeResource sender now b cu la s = Except.ok { s with
      lastSubmissionTime := Function.update s.lastSubmissionTime sender now
      batchTotalEncryptedComputeUnits :=
        Function.update s.batchTotalEncryptedComputeUnits b
          (FHE.toBytes32 (FHE.add cu
            (FHE.asEuint32 (s.batchTotalEncryptedComputeUnits b))))
      batchTotalEncryptedLendAmounts :=
        Function.update s.batchTotalEncryptedLendAmounts b
          (FHE.toBytes32 (FHE.add la
            (FHE.asEuint32 (s.batchTotalEncryptedLendAmounts b))))
      events := s.events ++ [.ComputeResourceSubmitted sender b
        (FHE.toBytes32 cu) (FHE.toBytes32 la)] } := by
  unfold submitEncryptedComputeResource
  simp [hprov, hpause, hopen, Nat.not_lt.mpr hcool]

theorem myCallback_of_gates (s : ContractState) (rid : Nat) (cleartexts : Nat × Nat)
    (hproc : (s.decryptionContexts rid).processed = false)
    (hvalid : ¬ (s.isBatchOpen (s.decryptionContexts rid).batchId = false ∧
      s.batchTotalEncryptedComputeUnits (s.decryptionContexts rid).batchId = 0))
    (hhash : hashCiphertexts
      [s.batchTotalEncryptedComputeUnits (s.decryptionContexts rid).batchId,
       s.batchTotalEncryptedLendAmounts (s.decryptionContexts rid).batchId]
      s.self = (s.decryptionContexts rid).stateHash) :
    myCallback rid cleartexts true s = Except.ok { s with
      decryptionContexts := Function.update s.decryptionContexts rid
        ⟨(s.decryptionContexts rid).batchId,
         (s.decryptionContexts rid).stateHash, true⟩
      events := s.events ++ [.DecryptionCompleted rid
        (s.decryptionContexts rid).batchId cleartexts.1 cleartexts.2] } := by
  unfold myCallback
  simp [hproc, hvalid, hhash]

/-! ### Claim C9 -/

/-- Claim C9 (confirmed): `requestBatchDecryption` never checks that a
batch was ever opened. For every batch id whose `isOpen` flag is false —
the code never consults `currentBatchId`, so this includes id 0 and ids
beyond `currentBatchId` — an authority call that is unpaused and past
its cooldown passes the batch-state gate and records an unresolved
request context committing to that id's accumulators; when those
accumulators are untouched (zero), the commitment is to the zero pair. -/
theorem C9_request_skips_allocation_check (s : ContractState) (now b rid : Nat)
    (hpause : s.paused = false)
    (hcool : s.lastDecryptionRequestTime s.owner + s.cooldownSeconds ≤ now)
    (hcl : s.isBatchOpen b = false) :
    ∃ s', requestBatchDecryption s.owner now b rid s = Except.ok s' ∧
      s'.decryptionContexts rid =
        ⟨b, hashCiphertexts [s.batchTotalEncryptedComputeUnits b,
                             s.batchTotalEncryptedLendAmounts b] s.self, false⟩ ∧
      (s.batchTotalEncryptedComputeUnits b = 0 →
       s.batchTotalEncryptedLendAmounts b = 0 →
       s'.decryptionContexts rid = ⟨b, hashCiphertexts [0, 0] s.self, false⟩) := by
  refine ⟨_, requestBatchDecryption_of_closed s now b rid hpause hcool hcl, ?_, ?_⟩
  · simp
  · intro h1 h2
    simp [h1, h2]

/-- Witness for C9: on the freshly deployed contract, the authority
requests decryption of never-allocated batch 7 and the call succeeds,
committing to the zero accumulator pair. -/
theorem C9_witness :
    ∃ s', requestBatchDecryption baseState.owner 0 7 3 baseState = Except.ok s' ∧
      s'.decryptionContexts 3 =
        ⟨7, hashCiphertexts [baseState.batchTotalEncryptedComputeUnits 7,
                             baseState.batchTotalEncryptedLendAmounts 7]
             baseState.self, false⟩ ∧
      (baseState.batchTotalEncryptedComputeUnits 7 = 0 →
       baseState.batchTotalEncryptedLendAmounts 7 = 0 →
       s'.decryptionContexts 3 = ⟨7, hashCiphertexts [0, 0] baseState.self, false⟩) :=
  C9_request_skips_allocation_check baseState 0 7 3 rfl (by decide) rfl

/-! ### Claim C4 -/

/-- Claim C4 (confirmed): with the authority calling, unpaused and past
the cooldown, `requestBatchDecryption` on an open batch fails with
`BatchClosedOrNonExistent`, and after `closeBatch` on that batch the
identical call succeeds, storing an unresolved context keyed by the
issued request id. -/
theorem C4_request_requires_closed (s : ContractState) (now b rid : Nat)
    (hpause : s.paused = false)
    (hcool : s.lastDecryptionRequestTime s.owner + s.cooldownSeconds ≤ now) :
    (s.isBatchOpen b = true →
      requestBatchDecryption s.owner now b rid s =
        Except.error .BatchClosedOrNonExistent) ∧
    (∀ s', closeBatch s.owner b s = Except.ok s' →
      ∃ s'', requestBatchDecryption s.owner now b rid s' = Except.ok s'' ∧
        (s''.decryptionContexts rid).batchId = b ∧
        (s''.decryptionContexts rid).processed = false) := by
  constructor
  · intro hopen
    unfold requestBatchDecryption
    simp [hpause, hopen, Nat.not_lt.mpr hcool]
  · intro s' hclose
    obtain ⟨-, -, rfl⟩ := closeBatch_ok hclose
    have key := requestBatchDecryption_of_closed
      { s with
        isBatchOpen := Function.update s.isBatchOpen b false
        events := s.events ++ [.BatchClosed b] }
      now b rid hpause hcool (by simp)
    exact ⟨_, key, by simp, by simp⟩

/-- Witness for C4: with batch 1 open, the authority's decryption request
fails with `BatchClosedOrNonExistent`; after closing batch 1 the same
call succeeds and stores an unresolved context under request id 9. -/
theorem C4_witness :
    (openState.isBatchOpen 1 = true →
      requestBatchDecryption openState.owner 5 1 9 openState =
        Except.error .BatchClosedOrNonExistent) ∧
    (∀ s', closeBatch openState.owner 1 openState = Except.ok s' →
      ∃ s'', requestBatchDecryption openState.owner 5 1 9 s' = Except.ok s'' ∧
        (s''.decryptionContexts 9).batchId = 1 ∧
        (s''.decryptionContexts 9).processed = false) :=
  C4_request_requires_closed openState 5 1 9 rfl (by decide)

/-! ### Claim C3 -/

/-- Claim C3 (confirmed): for an unresolved context that passes the
batch-validity gate, the callback recomputes the commitment hash from the
batch's current stored accumulator pair bound to `address(this)`; if it
differs from the commitment stored at request time the call fails with
`StateMismatch` and persists nothing, and only when the two are equal
does it proceed to proof verification (succeeding on a valid proof,
failing inside signature checking on an invalid one). -/
theorem C3_commitment_recheck (s : ContractState) (rid : Nat)
    (cleartexts : Nat × Nat) (sigOk : Bool)
    (hproc : (s.decryptionContexts rid).processed = false)
    (hvalid : ¬ (s.isBatchOpen (s.decryptionContexts rid).batchId = false ∧
      s.batchTotalEncryptedComputeUnits (s.decryptionContexts rid).batchId = 0)) :
    (hashCiphertexts
        [s.batchTotalEncryptedComputeUnits (s.decryptionContexts rid).batchId,
         s.batchTotalEncryptedLendAmounts (s.decryptionContexts rid).batchId]
        s.self ≠ (s.decryptionContexts rid).stateHash →
      myCallback rid cleartexts sigOk s = Except.error .StateMismatch ∧
      applyOp (.callbackOp rid cleartexts sigOk) s = s) ∧
    (hashCiphertexts
        [s.batchTotalEncryptedComputeUnits (s.decryptionContexts rid).batchId,
         s.batchTotalEncryptedLendAmounts (s.decryptionContexts rid).batchId]
        s.self = (s.decryptionContexts rid).stateHash →
      (sigOk = true → execOk (myCallback rid cleartexts sigOk s) = true) ∧
      (sigOk = false → myCallback rid cleartexts sigOk s = Except.error .InvalidProof)) := by
  constructor
  · intro hmis
    have herr : myCallback rid cleartexts sigOk s = Except.error .StateMismatch := by
      unfold myCallback
      simp [hproc, hvalid, hmis]
    exact ⟨herr, applyOp_error _ s _ herr⟩
  · intro hhash
    constructor
    · intro hsig
      subst hsig
      rw [myCallback_of_gates s rid cleartexts hproc hvalid hhash]
      rfl
    · intro hsig
      subst hsig
      unfold myCallback
      simp [hproc, hvalid, hhash]

/-- A state (not claimed reachable) whose stored commitment for request 4
no longer matches the recomputed hash of batch 1's accumulators. -/
def mismatchState : ContractState :=
  { baseState with
    batchTotalEncryptedComputeUnits := Function.update (fun _ => 0) 1 5
    decryptionContexts := Function.update (fun _ => ⟨0, 0, false⟩) 4 ⟨1, 999, false⟩ }

/-- The same state with the stored commitment equal to the recomputed
hash of batch 1's accumulators. -/
def matchedState : ContractState :=
  { baseState with
    batchTotalEncryptedComputeUnits := Function.update (fun _ => 0) 1 5
    decryptionContexts := Function.update (fun _ => ⟨0, 0, false⟩) 4
      ⟨1, hashCiphertexts [5, 0] 100, false⟩ }

/-- Witness for C3: with a drifted commitment the callback fails with
`StateMismatch` and changes nothing; with a matching commitment and a
valid proof it succeeds. -/
theorem C3_witness :
    (myCallback 4 (5, 0) true mismatchState = Except.error .StateMismatch ∧
     applyOp (.callbackOp 4 (5, 0) true) mismatchState = mismatchState) ∧
    execOk (myCallback 4 (5, 0) true matchedState) = true :=
  ⟨(C3_commitment_recheck mismatchState 4 (5, 0) true rfl (by decide)).1 (by decide),
   ((C3_commitment_recheck matchedState 4 (5, 0) true rfl (by decide)).2
     (by decide)).1 rfl⟩

/-! ### Claim C2 -/

/-- Claim C2 (confirmed): the replay check is the callback's very first
gate — a resolved context makes the call fail with the replay error
(`ReplayDetected`, the spec's `AlreadyResolved`) whatever the other
arguments and state, leaving all state including the emitted events
unchanged; a successful callback marks its context resolved; and, as
long as the external service never reissues the same request id to
`requestBatchDecryption`, every later callback for that id fails the
same way, so at most one resolution per request id ever succeeds. -/
theorem C2_replay_protection (s s' : ContractState) (rid : Nat) :
    (∀ cleartexts sigOk, (s.decryptionContexts rid).processed = true →
      myCallback rid cleartexts sigOk s = Except.error .ReplayDetected ∧
      applyOp (.callbackOp rid cleartexts sigOk) s = s) ∧
    (∀ cleartexts sigOk, myCallback rid cleartexts sigOk s = Except.ok s' →
      (s'.decryptionContexts rid).processed = true) ∧
    ((s'.decryptionContexts rid).processed = true →
      ∀ ops, (∀ op ∈ ops, usesRequestId op rid = false) →
      ∀ cleartexts sigOk,
        myCallback rid cleartexts sigOk (run s' ops) = Except.error .ReplayDetected ∧
        applyOp (.callbackOp rid cleartexts sigOk) (run s' ops) = run s' ops) := by
  have replay : ∀ (t : ContractState) cleartexts sigOk,
      (t.decryptionContexts rid).processed = true →
      myCallback rid cleartexts sigOk t = Except.error .ReplayDetected := by
    intro t cleartexts sigOk hp
    unfold myCallback
    simp [hp]
  refine ⟨?_, ?_, ?_⟩
  · intro cleartexts sigOk hp
    have herr := replay s cleartexts sigOk hp
    exact ⟨herr, applyOp_error _ s _ herr⟩
  · intro cleartexts sigOk h
    obtain ⟨-, -, -, -, rfl⟩ := myCallback_ok h
    simp
  · intro hp ops hfresh cleartexts sigOk
    have hpr := run_processed ops s' rid hp hfresh
    have herr := replay _ cleartexts sigOk hpr
    exact ⟨herr, applyOp_error _ _ _ herr⟩

/-- The state after the first successful resolution of request 77. -/
def resolvedState : ContractState :=
  forceOk (myCallback 77 (17, 8) true readyState) readyState

/-- Witness for C2: resolving request 77 succeeds and marks the context
resolved; after a further unrelated call, a second callback for 77 fails
with the replay error and leaves the state untouched. -/
theorem C2_witness :
    myCallback 77 (17, 8) true readyState = Except.ok resolvedState ∧
    (resolvedState.decryptionContexts 77).processed = true ∧
    myCallback 77 (1, 2) false (run resolvedState [.openBatchOp 1]) =
      Except.error .ReplayDetected ∧
    applyOp (.callbackOp 77 (1, 2) false) (run resolvedState [.openBatchOp 1]) =
      run resolvedState [.openBatchOp 1] :=
  ⟨rfl,
   (C2_replay_protection readyState resolvedState 77).2.1 (17, 8) true rfl,
   ((C2_replay_protection readyState resolvedState 77).2.2
     ((C2_replay_protection readyState resolvedState 77).2.1 (17, 8) true rfl)
     [.openBatchOp 1] (by decide) (1, 2) false).1,
   ((C2_replay_protection readyState resolvedState 77).2.2
     ((C2_replay_protection readyState resolvedState 77).2.1 (17, 8) true rfl)
     [.openBatchOp 1] (by decide) (1, 2) false).2⟩

/-! ### Claim C5 -/

/-- Claim C5 (confirmed): both gated actions compare `block.timestamp`
against the caller's own last-action timestamp for that action kind plus
the single shared `cooldownSeconds`. A too-early call (by an otherwise
authorized caller) fails with `CooldownActive` and, by revert semantics,
updates no timestamp; a successful call happened at or after the
deadline and records `now` in its own kind's timestamp map, leaving the
other kind's map untouched — in the same atomic step that performs the
accumulator (resp. request-recording) effects. -/
theorem C5_cooldown_gating (s : ContractState) (sender now b rid : Nat)
    (cu la : Euint32) :
    (s.isProvider sender = true → s.paused = false →
      now < s.lastSubmissionTime sender + s.cooldownSeconds →
      submitEncryptedComputeResource sender now b cu la s =
        Except.error .CooldownActive ∧
      applyOp (.submitOp ⟨sender, now, cu, la⟩ b) s = s) ∧
    (s.paused = false →
      now < s.lastDecryptionRequestTime s.owner + s.cooldownSeconds →
      requestBatchDecryption s.owner now b rid s = Except.error .CooldownActive ∧
      applyOp (.requestDecryptionOp s.owner now b rid) s = s) ∧
    (∀ s', submitEncryptedComputeResource sender now b cu la s = Except.ok s' →
      s.lastSubmissionTime sender + s.cooldownSeconds ≤ now ∧
      s'.lastSubmissionTime sender = now ∧
      s'.lastDecryptionRequestTime = s.lastDecryptionRequestTime ∧
      s'.cooldownSeconds = s.cooldownSeconds ∧
      s'.batchTotalEncryptedComputeUnits b =
        FHE.toBytes32 (FHE.add cu
          (FHE.asEuint32 (s.batchTotalEncryptedComputeUnits b)))) ∧
    (∀ s', requestBatchDecryption s.owner now b rid s = Except.ok s' →
      s.lastDecryptionRequestTime s.owner + s.cooldownSeconds ≤ now ∧
      s'.lastDecryptionRequestTime s.owner = now ∧
      s'.lastSubmissionTime = s.lastSubmissionTime ∧
      s'.cooldownSeconds = s.cooldownSeconds) := by
  refine ⟨?_, ?_, ?_, ?_⟩
  · intro hprov hpause hlt
    have herr : submitEncryptedComputeResource sender now b cu la s =
        Except.error .CooldownActive := by
      unfold submitEncryptedComputeResource
      simp [hprov, hpause, hlt]
    exact ⟨herr, applyOp_error _ s _ herr⟩
  · intro hpause hlt
    have herr : requestBatchDecryption s.owner now b rid s =
        Except.error .CooldownActive := by
      unfold requestBatchDecryption
      simp [hpause, hlt]
    exact ⟨herr, applyOp_error _ s _ herr⟩
  · intro s' h
    obtain ⟨-, -, hcool, -, rfl⟩ := submit_ok h
    exact ⟨hcool, by simp, rfl, rfl, by simp⟩
  · intro s' h
    obtain ⟨-, -, hcool, -, rfl⟩ := requestBatchDecryption_ok h
    exact ⟨hcool, by simp, rfl, rfl⟩

/-- A state with a 100-second cooldown, provider 2, and batch 1 open. -/
def cooldownState : ContractState :=
  run baseState [.setCooldownSecondsOp 1 100, .addProviderOp 1 2, .openBatchOp 1]

/-- Witness for C5: at time 50 (cooldown 100, last action 0) both the
provider's submission and the authority's decryption request fail with
`CooldownActive` and change nothing; at time 200 the submission succeeds
and stamps 200 into the submission map only, and the authority's request
for closed batch 2 succeeds and stamps 200 into the request map only. -/
theorem C5_witness :
    (submitEncryptedComputeResource 2 50 1 ⟨6⟩ ⟨4⟩ cooldownState =
       Except.error .CooldownActive ∧
     applyOp (.submitOp ⟨2, 50, ⟨6⟩, ⟨4⟩⟩ 1) cooldownState = cooldownState) ∧
    (requestBatchDecryption cooldownState.owner 50 2 9 cooldownState =
       Except.error .CooldownActive ∧
     applyOp (.requestDecryptionOp cooldownState.owner 50 2 9) cooldownState =
       cooldownState) ∧
    (cooldownState.lastSubmissionTime 2 + cooldownState.cooldownSeconds ≤ 200 ∧
     (forceOk (submitEncryptedComputeResource 2 200 1 ⟨6⟩ ⟨4⟩ cooldownState)
        cooldownState).lastSubmissionTime 2 = 200 ∧
     (forceOk (submitEncryptedComputeResource 2 200 1 ⟨6⟩ ⟨4⟩ cooldownState)
        cooldownState).lastDecryptionRequestTime =
       cooldownState.lastDecryptionRequestTime ∧
     (forceOk (submitEncryptedComputeResource 2 200 1 ⟨6⟩ ⟨4⟩ cooldownState)
        cooldownState).cooldownSeconds = cooldownState.cooldownSeconds ∧
     (forceOk (submitEncryptedComputeResource 2 200 1 ⟨6⟩ ⟨4⟩ cooldownState)
        cooldownState).batchTotalEncryptedComputeUnits 1 =
       FHE.toBytes32 (FHE.add ⟨6⟩
         (FHE.asEuint32 (cooldownState.batchTotalEncryptedComputeUnits 1)))) ∧
    (cooldownState.lastDecryptionRequestTime cooldownState.owner +
       cooldownState.cooldownSeconds ≤ 200 ∧
     (forceOk (requestBatchDecryption cooldownState.owner 200 2 9 cooldownState)
        cooldownState).lastDecryptionRequestTime cooldownState.owner = 200 ∧
     (forceOk (requestBatchDecryption cooldownState.owner 200 2 9 cooldownState)
        cooldownState).lastSubmissionTime = cooldownState.lastSubmissionTime ∧
     (forceOk (requestBatchDecryption cooldownState.owner 200 2 9 cooldownState)
        cooldownState).cooldownSeconds = cooldownState.cooldownSeconds) :=
  ⟨(C5_cooldown_gating cooldownState 2 50 1 9 ⟨6⟩ ⟨4⟩).1 rfl rfl (by decide),
   (C5_cooldown_gating cooldownState 2 50 1 9 ⟨6⟩ ⟨4⟩).2.1 rfl (by decide),
   (C5_cooldown_gating cooldownState 2 200 1 9 ⟨6⟩ ⟨4⟩).2.2.1 _ rfl,
   (C5_cooldown_gating cooldownState 2 200 2 9 ⟨6⟩ ⟨4⟩).2.2.2 _ rfl⟩

/-! ### Claim C6 -/

/-- Counterexample for C6: the current authority may transfer authority
to the null address — the call succeeds and leaves `owner = 0`, so the
authority does not "remain non-null after every operation". -/
theorem C6_counterexample :
    baseState.owner ≠ 0 ∧
    execOk (transferOwnership baseState.owner 0 baseState) = true ∧
    (applyOp (.transferOwnershipOp baseState.owner 0) baseState).owner = 0 :=
  ⟨by decide, rfl, rfl⟩

/-- Claim C6 as amended: the authority equals the deployer at
construction (hence is non-null whenever the deployer is), only the
current authority may transfer it (`NotOwner` otherwise, nothing
changed), a successful transfer takes effect immediately with no
acceptance step, and no other operation writes the authority slot — but
`transferOwnership` itself does not enforce non-nullness, so the
authority may become the null address. -/
theorem C6_authority_amended (s : ContractState) (sender newOwner deployer addr : Nat) :
    (deploy deployer addr).owner = deployer ∧
    (deployer ≠ 0 → (deploy deployer addr).owner ≠ 0) ∧
    (sender ≠ s.owner →
      transferOwnership sender newOwner s = Except.error .NotOwner ∧
      applyOp (.transferOwnershipOp sender newOwner) s = s) ∧
    (∀ s', transferOwnership sender newOwner s = Except.ok s' →
      sender = s.owner ∧ s'.owner = newOwner) ∧
    (∀ op, isTransferOwnershipOp op = false → (applyOp op s).owner = s.owner) := by
  refine ⟨rfl, fun h => h, ?_, ?_, fun op h => applyOp_owner op s h⟩
  · intro hne
    have herr : transferOwnership sender newOwner s = Except.error .NotOwner := by
      unfold transferOwnership
      simp [hne]
    exact ⟨herr, applyOp_error _ s _ herr⟩
  · intro s' h
    obtain ⟨hsend, rfl⟩ := transferOwnership_ok h
    exact ⟨hsend, rfl⟩

/-- Witness for C6 as amended: on the deployed contract, a stranger's
transfer fails with `NotOwner` and changes nothing, the authority's own
transfer to address 5 takes effect immediately, and a non-transfer call
(adding a provider) leaves the authority unchanged. -/
theorem C6_witness :
    (deploy 1 100).owner = 1 ∧
    ((1 : Nat) ≠ 0 → (deploy 1 100).owner ≠ 0) ∧
    (transferOwnership 9 5 baseState = Except.error .NotOwner ∧
     applyOp (.transferOwnershipOp 9 5) baseState = baseState) ∧
    (forceOk (transferOwnership 1 5 baseState) baseState).owner = 5 ∧
    (applyOp (.addProviderOp 1 2) baseState).owner = baseState.owner :=
  ⟨(C6_authority_amended baseState 9 5 1 100).1,
   (C6_authority_amended baseState 9 5 1 100).2.1,
   (C6_authority_amended baseState 9 5 1 100).2.2.1 (by decide),
   ((C6_authority_amended baseState 1 5 1 100).2.2.2.1 _ rfl).2,
   (C6_authority_amended baseState 1 5 1 100).2.2.2.2 (.addProviderOp 1 2) rfl⟩

/-! ### Claim C8 -/

/-- A paused deployment in which provider 2 exists, batch 1 is closed
with accumulators (17, 8), and request 77 is pending: `readyOps`
followed by `setPaused(true)`. -/
def pausedReadyState : ContractState :=
  run baseState (readyOps ++ [.setPausedOp 1 true])

/-- Counterexample for C8: while paused, a submission from an address
that is not a provider fails with `NotProvider`, not with the paused
error — the `onlyProvider` modifier runs before `whenNotPaused`. -/
theorem C8_counterexample :
    pausedReadyState.paused = true ∧
    pausedReadyState.isProvider 9 = false ∧
    submitEncryptedComputeResource 9 0 1 ⟨1⟩ ⟨1⟩ pausedReadyState =
      Except.error .NotProvider ∧
    Err.NotProvider ≠ Err.Paused :=
  ⟨rfl, rfl, rfl, by decide⟩

/-- Claim C8 as amended: while paused, every `submitEncryptedComputeResource`
and every `requestBatchDecryption` fails and changes no state; when the
caller passes the preceding authorization modifier (provider resp.
authority) the failure is specifically the `Paused` error; and the
callback path is not pause-gated — a callback meeting all its other
checks succeeds even while paused. -/
theorem C8_pause_amended (s : ContractState) (sender now b rid : Nat)
    (cu la : Euint32) (hpaused : s.paused = true) :
    (execOk (submitEncryptedComputeResource sender now b cu la s) = false ∧
     applyOp (.submitOp ⟨sender, now, cu, la⟩ b) s = s) ∧
    (s.isProvider sender = true →
      submitEncryptedComputeResource sender now b cu la s = Except.error .Paused) ∧
    (execOk (requestBatchDecryption sender now b rid s) = false ∧
     applyOp (.requestDecryptionOp sender now b rid) s = s) ∧
    (sender = s.owner →
      requestBatchDecryption sender now b rid s = Except.error .Paused) ∧
    (∀ cleartexts, (s.decryptionContexts rid).processed = false →
      ¬ (s.isBatchOpen (s.decryptionContexts rid).batchId = false ∧
         s.batchTotalEncryptedComputeUnits (s.decryptionContexts rid).batchId = 0) →
      hashCiphertexts
        [s.batchTotalEncryptedComputeUnits (s.decryptionContexts rid).batchId,
         s.batchTotalEncryptedLendAmounts (s.decryptionContexts rid).batchId]
        s.self = (s.decryptionContexts rid).stateHash →
      execOk (myCallback rid cleartexts true s) = true) := by
  have hsub : ∀ e, submitEncryptedComputeResource sender now b cu la s =
      Except.error e → execOk (submitEncryptedComputeResource sender now b cu la s) =
      false ∧ applyOp (.submitOp ⟨sender, now, cu, la⟩ b) s = s := by
    intro e herr
    rw [herr]
    exact ⟨rfl, applyOp_error _ s _ herr⟩
  refine ⟨?_, ?_, ?_, ?_, ?_⟩
  · by_cases hprov : s.isProvider sender = true
    · refine hsub .Paused ?_
      unfold submitEncryptedComputeResource
      simp [hprov, hpaused]
    · refine hsub .NotProvider ?_
      unfold submitEncryptedComputeResource
      simp [hprov]
  · intro hprov
    unfold submitEncryptedComputeResource
    simp [hprov, hpaused]
  · have hreq : ∀ e, requestBatchDecryption sender now b rid s = Except.error e →
        execOk (requestBatchDecryption sender now b rid s) = false ∧
        applyOp (.requestDecryptionOp sender now b rid) s = s := by
      intro e herr
      rw [herr]
      exact ⟨rfl, applyOp_error _ s _ herr⟩
    by_cases hown : sender = s.owner
    · refine hreq .Paused ?_
      unfold requestBatchDecryption
      simp [hown, hpaused]
    · refine hreq .NotOwner ?_
      unfold requestBatchDecryption
      simp [hown]
  · intro hown
    unfold requestBatchDecryption
    simp [hown, hpaused]
  · intro cleartexts hproc hvalid hhash
    rw [myCallback_of_gates s rid cleartexts hproc hvalid hhash]
    rfl

/-- Witness for C8 as amended: in the paused state, provider 2's
submission fails specifically with `Paused` and a stranger's fails too
(with no state change either way), the authority's decryption request
fails with `Paused`, and the callback resolving the pre-pause request 77
succeeds despite the pause. -/
theorem C8_witness :
    (execOk (submitEncryptedComputeResource 2 0 1 ⟨1⟩ ⟨2⟩ pausedReadyState) = false ∧
     applyOp (.submitOp ⟨2, 0, ⟨1⟩, ⟨2⟩⟩ 1) pausedReadyState = pausedReadyState) ∧
    submitEncryptedComputeResource 2 0 1 ⟨1⟩ ⟨2⟩ pausedReadyState =
      Except.error .Paused ∧
    (execOk (requestBatchDecryption 1 0 2 9 pausedReadyState) = false ∧
     applyOp (.requestDecryptionOp 1 0 2 9) pausedReadyState = pausedReadyState) ∧
    requestBatchDecryption 1 0 2 9 pausedReadyState = Except.error .Paused ∧
    execOk (myCallback 77 (17, 8) true pausedReadyState) = true :=
  ⟨(C8_pause_amended pausedReadyState 2 0 1 9 ⟨1⟩ ⟨2⟩ rfl).1,
   (C8_pause_amended pausedReadyState 2 0 1 9 ⟨1⟩ ⟨2⟩ rfl).2.1 rfl,
   (C8_pause_amended pausedReadyState 1 0 2 9 ⟨1⟩ ⟨2⟩ rfl).2.2.1,
   (C8_pause_amended pausedReadyState 1 0 2 9 ⟨1⟩ ⟨2⟩ rfl).2.2.2.1 rfl,
   (C8_pause_amended pausedReadyState 2 0 1 77 ⟨1⟩ ⟨2⟩ rfl).2.2.2.2 (17, 8)
     rfl (by decide) (by decide)⟩

/-! ### Claim C7 -/

/-- Claim C7 (confirmed): once a batch with an allocated id is closed it
never becomes open again in any reachable continuation — `openBatch`
always allocates the fresh id `currentBatchId + 1` — and no subsequent
operation (closing included, which never touches accumulators) modifies
the closed batch's accumulators. -/
theorem C7_closed_is_terminal (deployer addr b : Nat) (ops more : List Op)
    (hcl : (run (deploy deployer addr) ops).isBatchOpen b = false)
    (hb : b ≤ (run (deploy deployer addr) ops).currentBatchId) :
    (run (deploy deployer addr) (ops ++ more)).isBatchOpen b = false ∧
    (run (deploy deployer addr) (ops ++ more)).batchTotalEncryptedComputeUnits b =
      (run (deploy deployer addr) ops).batchTotalEncryptedComputeUnits b ∧
    (run (deploy deployer addr) (ops ++ more)).batchTotalEncryptedLendAmounts b =
      (run (deploy deployer addr) ops).batchTotalEncryptedLendAmounts b ∧
    (∀ sender s s', openBatch sender s = Except.ok s' →
      s'.currentBatchId = s.currentBatchId + 1 ∧
      s'.isBatchOpen (s.currentBatchId + 1) = true) ∧
    (∀ sender s s', closeBatch sender b s = Except.ok s' →
      s'.isBatchOpen b = false ∧
      s'.batchTotalEncryptedComputeUnits = s.batchTotalEncryptedComputeUnits ∧
      s'.batchTotalEncryptedLendAmounts = s.batchTotalEncryptedLendAmounts) := by
  rw [run_append]
  obtain ⟨h1, h2, h3, h4⟩ := run_closed_frame more (run (deploy deployer addr) ops) b hcl hb
  refine ⟨h1, h3, h4, ?_, ?_⟩
  · intro sender s s' h
    obtain ⟨-, -, rfl⟩ := openBatch_ok h
    exact ⟨rfl, by simp⟩
  · intro sender s s' h
    obtain ⟨-, -, rfl⟩ := closeBatch_ok h
    exact ⟨by simp, rfl, rfl⟩

/-- Witness for C7: batch 1 is opened, received a submission, and was
closed; after two further `openBatch` calls (allocating ids 2 and 3)
batch 1 is still closed with its accumulators intact. -/
theorem C7_witness :
    (run (deploy 1 100) ([.addProviderOp 1 2, .openBatchOp 1,
        .submitOp ⟨2, 0, ⟨10⟩, ⟨5⟩⟩ 1, .closeBatchOp 1 1] ++
        [.openBatchOp 1, .openBatchOp 1])).isBatchOpen 1 = false ∧
    (run (deploy 1 100) ([.addProviderOp 1 2, .openBatchOp 1,
        .submitOp ⟨2, 0, ⟨10⟩, ⟨5⟩⟩ 1, .closeBatchOp 1 1] ++
        [.openBatchOp 1, .openBatchOp 1])).batchTotalEncryptedComputeUnits 1 =
      (run (deploy 1 100) [.addProviderOp 1 2, .openBatchOp 1,
        .submitOp ⟨2, 0, ⟨10⟩, ⟨5⟩⟩ 1,
        .closeBatchOp 1 1]).batchTotalEncryptedComputeUnits 1 ∧
    (run (deploy 1 100) ([.addProviderOp 1 2, .openBatchOp 1,
        .submitOp ⟨2, 0, ⟨10⟩, ⟨5⟩⟩ 1, .closeBatchOp 1 1] ++
        [.openBatchOp 1, .openBatchOp 1])).batchTotalEncryptedLendAmounts 1 =
      (run (deploy 1 100) [.addProviderOp 1 2, .openBatchOp 1,
        .submitOp ⟨2, 0, ⟨10⟩, ⟨5⟩⟩ 1,
        .closeBatchOp 1 1]).batchTotalEncryptedLendAmounts 1 := by
  obtain ⟨h1, h2, h3, -, -⟩ := C7_closed_is_terminal 1 100 1
    [.addProviderOp 1 2, .openBatchOp 1, .submitOp ⟨2, 0, ⟨10⟩, ⟨5⟩⟩ 1,
     .closeBatchOp 1 1] [.openBatchOp 1, .openBatchOp 1] rfl (by decide)
  exact ⟨h1, h2, h3⟩

/-! ### Claim C10 -/

/-- The invalid-batch gate of the callback: an unresolved context whose
batch is not open and whose compute-unit accumulator is zero reverts
with `InvalidBatchId`, before any commitment or proof checking. -/
theorem myCallback_invalid (s : ContractState) (rid : Nat)
    (cleartexts : Nat × Nat) (sigOk : Bool)
    (hproc : (s.decryptionContexts rid).processed = false)
    (hcl : s.isBatchOpen (s.decryptionContexts rid).batchId = false)
    (hacc : s.batchTotalEncryptedComputeUnits (s.decryptionContexts rid).batchId = 0) :
    myCallback rid cleartexts sigOk s = Except.error .InvalidBatchId := by
  unfold myCallback
  simp [hproc, hcl, hacc]

/-- Claim C10 (confirmed): whenever a request's stored batch has a
cleared open-flag and a zero compute-unit accumulator, the callback
fails with `InvalidBatchId` for any cleartexts and any proof outcome —
before the commitment or signature checks. In particular, on any
reachable state a request id with no stored context (the zero context,
pointing at batch 0) can never be resolved, and once a batch is closed
with an empty accumulator, no trace makes a callback pointing at it
succeed. -/
theorem C10_invalid_batch_gate (s : ContractState) (rid : Nat) :
    (∀ cleartexts sigOk,
      (s.decryptionContexts rid).processed = false →
      s.isBatchOpen (s.decryptionContexts rid).batchId = false →
      s.batchTotalEncryptedComputeUnits (s.decryptionContexts rid).batchId = 0 →
      myCallback rid cleartexts sigOk s = Except.error .InvalidBatchId) ∧
    (Reachable s → s.decryptionContexts rid = ⟨0, 0, false⟩ →
      ∀ cleartexts sigOk,
        myCallback rid cleartexts sigOk s = Except.error .InvalidBatchId) ∧
    (∀ b, s.isBatchOpen b = false → b ≤ s.currentBatchId →
      s.batchTotalEncryptedComputeUnits b = 0 →
      ∀ ops rid2 cleartexts sigOk,
        ((run s ops).decryptionContexts rid2).batchId = b →
        execOk (myCallback rid2 cleartexts sigOk (run s ops)) = false) := by
  refine ⟨fun c g => myCallback_invalid s rid c g, ?_, ?_⟩
  · rintro ⟨deployer, addr, ops0, rfl⟩ hctx cleartexts sigOk
    obtain ⟨g1, -, g3, -⟩ := run_closed_frame ops0 (deploy deployer addr) 0 rfl
      (Nat.zero_le _)
    refine myCallback_invalid _ rid cleartexts sigOk ?_ ?_ ?_ <;> rw [hctx]
    · exact g1
    · exact g3
  · intro b hcl hb hacc ops rid2 cleartexts sigOk hctx
    obtain ⟨g1, -, g3, -⟩ := run_closed_frame ops s b hcl hb
    by_cases hproc : ((run s ops).decryptionContexts rid2).processed = true
    · have : myCallback rid2 cleartexts sigOk (run s ops) =
          Except.error .ReplayDetected := by
        unfold myCallback
        simp [hproc]
      rw [this]
      rfl
    · have : myCallback rid2 cleartexts sigOk (run s ops) =
          Except.error .InvalidBatchId := by
        refine myCallback_invalid _ rid2 cleartexts sigOk
          (by simpa using hproc) ?_ ?_ <;> rw [hctx]
        · exact g1
        · exact g3.trans hacc
      rw [this]
      rfl

/-- A reachable state in which batch 1 was opened, closed with no
submissions, and had its decryption requested as request 5. -/
def emptyRequestState : ContractState :=
  run baseState [.openBatchOp 1, .closeBatchOp 1 1, .requestDecryptionOp 1 0 1 5]

/-- Witness for C10: the pending request 5 points at closed, empty batch
1, and resolving it fails with `InvalidBatchId` even with a valid proof;
request 99 has no stored context and also fails with `InvalidBatchId`;
and with batch 1 closed and empty, a later trace that opens batch 2
still cannot resolve request 5. -/
theorem C10_witness :
    myCallback 5 (0, 0) true emptyRequestState = Except.error .InvalidBatchId ∧
    myCallback 99 (3, 4) true emptyRequestState = Except.error .InvalidBatchId ∧
    execOk (myCallback 5 (1, 1) true (run emptyRequestState [.openBatchOp 1])) =
      false :=
  ⟨(C10_invalid_batch_gate emptyRequestState 5).1 (0, 0) true rfl rfl rfl,
   (C10_invalid_batch_gate emptyRequestState 99).2.1
     ⟨1, 100, [.openBatchOp 1, .closeBatchOp 1 1, .requestDecryptionOp 1 0 1 5], rfl⟩
     rfl (3, 4) true,
   (C10_invalid_batch_gate emptyRequestState 5).2.2 1 rfl (by decide) rfl
     [.openBatchOp 1] 5 (1, 1) true rfl⟩

/-! ### Claim C1 -/

/-- The accumulator after a chain of successful submissions: the prior
stored handle plus the submitted plaintexts, modulo 2^32. -/
theorem submitList_acc (b : Nat) (subs : List Submission) (s s' : ContractState)
    (h : submitList b subs s = Except.ok s') :
    decryptHandle (s'.batchTotalEncryptedComputeUnits b) =
      (s.batchTotalEncryptedComputeUnits b + sumComputeUnits subs) % UINT32_MOD ∧
    decryptHandle (s'.batchTotalEncryptedLendAmounts b) =
      (s.batchTotalEncryptedLendAmounts b + sumLendAmounts subs) % UINT32_MOD := by
  induction subs generalizing s with
  | nil =>
    unfold submitList at h
    injection h with h
    subst h
    constructor <;> simp [decryptHandle, sumComputeUnits, sumLendAmounts, Nat.add_mod_right]
  | cons sub rest ih =>
    unfold submitList at h
    cases hE : submitEncryptedComputeResource sub.sender sub.time b
        sub.computeUnits sub.lendAmount s with
    | error e => rw [hE] at h; exact Except.noConfusion h
    | ok s1 =>
      rw [hE] at h
      obtain ⟨-, -, -, -, rfl⟩ := submit_ok hE
      obtain ⟨ih1, ih2⟩ := ih _ h
      rw [ih1, ih2]
      constructor <;>
        simp only [Function.update_same, FHE.add, FHE.asEuint32, FHE.toBytes32,
          sumComputeUnits, sumLendAmounts, decryptHandle, List.map_cons,
          List.sum_cons, UINT32_MOD] <;>
        omega

/-- Counterexample for C1: two successful submissions of the encrypted
value 2^31 into open batch 1 leave an accumulator that decrypts to 0,
while the arithmetic sum of the decrypted individual submissions is
2^32 — `euint32` homomorphic addition wraps modulo 2^32, so the
round-trip is exact only modulo 2^32. -/
theorem C1_counterexample :
    execOk (submitList 1 [⟨2, 0, ⟨2147483648⟩, ⟨0⟩⟩, ⟨2, 0, ⟨2147483648⟩, ⟨0⟩⟩]
      openState) = true ∧
    decryptHandle ((forceOk (submitList 1
      [⟨2, 0, ⟨2147483648⟩, ⟨0⟩⟩, ⟨2, 0, ⟨2147483648⟩, ⟨0⟩⟩] openState)
      openState).batchTotalEncryptedComputeUnits 1) = 0 ∧
    decryptHandle (FHE.toBytes32 (⟨2147483648⟩ : Euint32)) +
      decryptHandle (FHE.toBytes32 (⟨2147483648⟩ : Euint32)) = 4294967296 ∧
    (0 : Nat) ≠ 4294967296 :=
  ⟨rfl, rfl, by decide, by decide⟩

/-- Claim C1 as amended: for every batch whose accumulators start at the
encrypted zero and every sequence of successful `submitEncrypted` calls
into it, decrypting the final compute-unit and lend-amount accumulators
yields the arithmetic sums of the decrypted individual submitted values
*modulo 2^32* (exact equality holds only while the sums stay below
2^32, since `euint32` addition is modular). -/
theorem C1_homomorphic_accumulation (b : Nat) (subs : List Submission)
    (s s' : ContractState)
    (hcu0 : s.batchTotalEncryptedComputeUnits b = 0)
    (hla0 : s.batchTotalEncryptedLendAmounts b = 0)
    (h : submitList b subs s = Except.ok s') :
    decryptHandle (s'.batchTotalEncryptedComputeUnits b) =
      sumComputeUnits subs % UINT32_MOD ∧
    decryptHandle (s'.batchTotalEncryptedLendAmounts b) =
      sumLendAmounts subs % UINT32_MOD := by
  obtain ⟨h1, h2⟩ := submitList_acc b subs s s' h
  rw [h1, h2, hcu0, hla0]
  simp

/-- Witness for C1 as amended: submissions (10, 5) then (7, 3) into the
freshly opened batch 1 leave accumulators decrypting to 17 and 8. -/
theorem C1_witness :
    decryptHandle ((forceOk (submitList 1
      [⟨2, 0, ⟨10⟩, ⟨5⟩⟩, ⟨3, 0, ⟨7⟩, ⟨3⟩⟩] openState)
      openState).batchTotalEncryptedComputeUnits 1) =
      sumComputeUnits [⟨2, 0, ⟨10⟩, ⟨5⟩⟩, ⟨3, 0, ⟨7⟩, ⟨3⟩⟩] % UINT32_MOD ∧
    decryptHandle ((forceOk (submitList 1
      [⟨2, 0, ⟨10⟩, ⟨5⟩⟩, ⟨3, 0, ⟨7⟩, ⟨3⟩⟩] openState)
      openState).batchTotalEncryptedLendAmounts 1) =
      sumLendAmounts [⟨2, 0, ⟨10⟩, ⟨5⟩⟩, ⟨3, 0, ⟨7⟩, ⟨3⟩⟩] % UINT32_MOD :=
  C1_homomorphic_accumulation 1 [⟨2, 0, ⟨10⟩, ⟨5⟩⟩, ⟨3, 0, ⟨7⟩, ⟨3⟩⟩]
    openState _ rfl rfl rfl

end ComputeLendingFHE
